import Mathlib

/-!
# Verification of the OPCOPILOT phase-scheduling and timeline engine

Shallow embedding of the phase-scheduling, sequence-mutation, aggregate and
timeline-layout logic of `opcopilot_streamlit_complete_app.py` (the most
complete of the repository's application variants, which the specification's
design notes designate as the canonical revision).

Dates are modelled as integers (days since an arbitrary epoch): every
datetime the engine manipulates is a midnight datetime built with
`datetime.combine(date, datetime.min.time())`, so `timedelta(days=n)`
arithmetic and `.days` differences are exact whole-day arithmetic.
Statuses and colours are the literal strings used by the source.
-/

namespace Opcopilot

/-- One entry of a phase template (`TEMPLATES_PHASES` values and the
user-supplied custom phase dicts): `{"nom": ..., "duree_jours": ...,
"couleur": ...}`. -/
structure Blueprint where
  nom : String
  duree_jours : Int
  couleur : String
deriving Repr, DecidableEq

/-- The `Phase` dataclass of the source (`id`, `nom`, `date_debut`,
`date_fin`, `couleur`, `statut`, `description`, `responsable`, `freins`).
The two datetimes are whole days, hence `Int`. -/
structure Phase where
  id : String
  nom : String
  date_debut : Int
  date_fin : Int
  couleur : String
  statut : String := "En attente"
  description : String := ""
  responsable : String := ""
  freins : List String := []
deriving Repr, DecidableEq

/-- The `Operation` dataclass of the source (dates as whole days,
budget kept as an integer amount; the float budget plays no role in any
arithmetic the claims touch). -/
structure Operation where
  id : String
  nom : String
  type_operation : String
  aco_responsable : String
  date_creation : Int
  date_debut : Int
  date_fin_prevue : Int
  budget : Int
  statut : String := "Créée"
  phases : List Phase := []
deriving Repr, DecidableEq

/-! ## Duration utility (§4.1) -/

/-- The dict `UNITES_DUREE = {"jours": 1, "semaines": 7, "mois": 30}`; a Python dict
lookup on any other key raises `KeyError`, modelled by `none`. -/
def UNITES_DUREE (unite : String) : Option Int :=
  if unite = "jours" then some 1
  else if unite = "semaines" then some 7
  else if unite = "mois" then some 30
  else none

/-- The conversion `convert_to_days(valeur, unite) = valeur * UNITES_DUREE[unite]`;
the only failure is the dict lookup (`KeyError` on an unknown unit). -/
def convert_to_days (valeur : Int) (unite : String) : Option Int :=
  (UNITES_DUREE unite).map (fun k => valeur * k)

/-- The formatter `format_duration(jours)`: exact multiples of 30 (at least 30) render as
months, else exact multiples of 7 (at least 7) as weeks, else as days.
`jours // 30` and `jours // 7` are only reached on exact nonnegative
multiples, where `Int` division agrees with Python floor division. -/
def format_duration (jours : Int) : String :=
  if jours ≥ 30 ∧ jours % 30 = 0 then toString (jours / 30) ++ " mois"
  else if jours ≥ 7 ∧ jours % 7 = 0 then toString (jours / 7) ++ " semaines"
  else toString jours ++ " jours"

/-! ## Phase sequencer: creation workflow (`nouvelle_operation`) -/

/-- The phase-creation loop of `nouvelle_operation`
(`opcopilot_streamlit_complete_app.py:883-900`, identically
`opcopilot_app.py:584-601`): for each template entry,
`date_fin_phase = current_date + timedelta(days=duree_jours)`, the phase is
built with `statut="En attente"`, empty `freins`, the ACO as responsable,
and the cursor advances to `date_fin_phase + timedelta(days=1)`.
The `uuid.uuid4()` phase ids are nondeterministic fresh strings irrelevant
to every claim; the model leaves them `""`. -/
def sequencePhases (blueprints : List Blueprint) (current_date : Int)
    (aco_responsable : String) : List Phase :=
  match blueprints with
  | [] => []
  | bp :: rest =>
    let date_fin_phase := current_date + bp.duree_jours
    { id := ""
      nom := bp.nom
      date_debut := current_date
      date_fin := date_fin_phase
      couleur := bp.couleur
      statut := "En attente"
      responsable := aco_responsable
      freins := [] } :: sequencePhases rest (date_fin_phase + 1) aco_responsable

/-- Creation workflow `nouvelle_operation` (lines 871-917): validation
rejects a missing name, type or responsible (`if not nom or not
type_operation or not aco_responsable: st.error(...); return` — Python
falsiness of the empty string), and only on success builds the phases and
saves the operation (`db.save_operation`). The store is the list of saved
operations; the returned `Bool` is whether creation happened. No date
check is performed. -/
def nouvelle_operation (nom type_operation aco_responsable : String)
    (budget date_debut date_fin : Int) (phases_template : List Blueprint)
    (store : List Operation) : Bool × List Operation :=
  if nom = "" ∨ type_operation = "" ∨ aco_responsable = "" then
    (false, store)
  else
    let phases := sequencePhases phases_template date_debut aco_responsable
    let operation : Operation :=
      { id := ""
        nom := nom
        type_operation := type_operation
        aco_responsable := aco_responsable
        date_creation := 0
        date_debut := date_debut
        date_fin_prevue := date_fin
        budget := budget
        statut := "Créée"
        phases := phases }
    (true, store ++ [operation])

/-! ## Sequence mutator: phase insertion (`operations_en_cours`, lines 1071-1103) -/

/-- The in-place shift applied to each phase from the insertion point
onward: `phase.date_debut += timedelta(days=d); phase.date_fin +=
timedelta(days=d)`. -/
def shiftPhase (d : Int) (p : Phase) : Phase :=
  { p with date_debut := p.date_debut + d, date_fin := p.date_fin + d }

/-- Insertion BEFORE the phase at index `idx` (the "Avant '...'" branch of
the add-phase form, lines 1073-1103): read the target's start
(`date_debut = phases[idx].date_debut` — a binding to the immutable
datetime, taken before the shift rebinds the field), shift every phase of
`phases[idx:]` forward by `new_phase_duree` days, build the new phase with
`date_fin = date_debut + timedelta(days=new_phase_duree - 1)` and
`statut="En attente"`, and `phases.insert(idx, new_phase)`. In the source
`idx` always indexes an existing phase (the position list is built from the
phase list); out of range the model returns the list unchanged. -/
def insertBefore (phases : List Phase) (idx : Nat)
    (new_id new_nom new_couleur new_description new_responsable : String)
    (new_phase_duree : Int) : List Phase :=
  match phases[idx]? with
  | none => phases
  | some target =>
    let date_debut := target.date_debut
    let date_fin := date_debut + (new_phase_duree - 1)
    let new_phase : Phase :=
      { id := new_id
        nom := new_nom
        date_debut := date_debut
        date_fin := date_fin
        couleur := new_couleur
        statut := "En attente"
        description := new_description
        responsable := new_responsable
        freins := [] }
    phases.take idx ++ new_phase :: (phases.drop idx).map (shiftPhase new_phase_duree)

/-- The contiguity invariant of §3: each phase starts the day after the
previous one ends (a relation between each adjacent pair). -/
def Contiguous (phases : List Phase) : Prop :=
  phases.Chain' (fun p q => q.date_debut = p.date_fin + 1)

/-- Executable check of the contiguity invariant. -/
def contiguousB : List Phase → Bool
  | [] => true
  | [_] => true
  | p :: q :: rest => (q.date_debut == p.date_fin + 1) && contiguousB (q :: rest)

instance (phases : List Phase) : Decidable (Contiguous phases) :=
  decidable_of_iff (contiguousB phases = true) (by
    unfold Contiguous
    induction phases with
    | nil => simp [contiguousB]
    | cons p rest ih =>
      cases rest with
      | nil => simp [contiguousB]
      | cons q rest2 =>
        rw [List.chain'_cons, ← ih]
        simp [contiguousB, Bool.and_eq_true, beq_iff_eq])

/-! ## Status & aggregate engine -/

/-- Count `phases_completed` (line 982): number of phases with `statut ==
"Terminé"`. -/
def phases_completed (phases : List Phase) : Nat :=
  (phases.filter (fun p => p.statut = "Terminé")).length

/-- Ratio form of `progress_pct` (lines 983-984): the code displays
`phases_completed / len(phases) * 100` and guards the empty list with 0;
this is that quantity as a ratio in `[0,1]`. -/
def avancement (phases : List Phase) : ℚ :=
  if phases.length = 0 then 0
  else (phases_completed phases : ℚ) / (phases.length : ℚ)

/-- Count `phases_en_retard` (line 656): number of phases with `statut ==
"Retard"`. -/
def phases_en_retard (phases : List Phase) : Nat :=
  (phases.filter (fun p => p.statut = "Retard")).length

/-- Count `freins_critiques` (line 657): number of phases with a non-empty
`freins` list (`if phase.freins` — Python truthiness of a list). -/
def freins_critiques (phases : List Phase) : Nat :=
  (phases.filter (fun p => ¬ p.freins.isEmpty)).length

/-- The "Alertes Critiques" metric (line 660): `phases_en_retard +
freins_critiques`, summed with no deduplication. -/
def alertes_critiques (phases : List Phase) : Nat :=
  phases_en_retard phases + freins_critiques phases

/-! ## Timeline layout builder (`create_timeline_gantt`, lines 521-587) -/

/-- One horizontal bar of the Gantt figure: `x=[duration]`,
`base=date_debut`, the status-overridden colour, and the `"⚠️"` blocker
icon flag. -/
structure GanttBar where
  nom : String
  width : Int
  base : Int
  color : String
  hasBlockerMarker : Bool
deriving Repr, DecidableEq

/-- Colour override (lines 534-541): `"Terminé"` → success green,
`"En cours"` → active blue, `"Retard"` → alert red, otherwise the phase's
own colour. -/
def statusColor (p : Phase) : String :=
  if p.statut = "Terminé" then "#28a745"
  else if p.statut = "En cours" then "#007bff"
  else if p.statut = "Retard" then "#dc3545"
  else p.couleur

/-- The bar built for one phase (lines 530-557):
`duration = (phase.date_fin - phase.date_debut).days`. -/
def ganttBar (p : Phase) : GanttBar :=
  { nom := p.nom
    width := p.date_fin - p.date_debut
    base := p.date_debut
    color := statusColor p
    hasBlockerMarker := ¬ p.freins.isEmpty }

/-- Mapping `create_timeline_gantt` over an operation's phase list: one bar per
phase, in order (the connector annotations carry no data the claims
mention beyond the order itself). -/
def create_timeline_gantt (phases : List Phase) : List GanttBar :=
  phases.map ganttBar

/-! ## Blocker clearing (`freins_alertes`, lines 1472-1476) -/

/-- The "Lever Freins" action: `phase.freins = []` and nothing else, then
save. -/
def leverFreins (p : Phase) : Phase :=
  { p with freins := [] }

/-- The phase record the insertion branch builds (lines 1084-1096), given
the target's former start date: start = that date, end = start +
(duration − 1), status "En attente", empty freins. -/
def newPhaseAt (target_debut : Int)
    (new_id new_nom new_couleur new_description new_responsable : String)
    (new_phase_duree : Int) : Phase :=
  { id := new_id
    nom := new_nom
    date_debut := target_debut
    date_fin := target_debut + (new_phase_duree - 1)
    couleur := new_couleur
    statut := "En attente"
    description := new_description
    responsable := new_responsable
    freins := [] }

/-- Scenario D of §8: four phases with statuses [Terminé, Terminé, Retard,
En attente] and one frein on the Retard phase. -/
def scenarioD : List Phase :=
  [{ id := "1", nom := "P1", date_debut := 0, date_fin := 10,
     couleur := "c", statut := "Terminé" },
   { id := "2", nom := "P2", date_debut := 11, date_fin := 20,
     couleur := "c", statut := "Terminé" },
   { id := "3", nom := "P3", date_debut := 21, date_fin := 30,
     couleur := "c", statut := "Retard", freins := ["retard fournisseur"] },
   { id := "4", nom := "P4", date_debut := 31, date_fin := 40,
     couleur := "c", statut := "En attente" }]

/-- A delayed phase that also carries a blocker, for concrete instances. -/
def phaseRetardBloquee : Phase :=
  { id := "9", nom := "P", date_debut := 0, date_fin := 1,
    couleur := "c", statut := "Retard", freins := ["blocage"] }

/-! ## Helper lemmas -/

/-- The first phase the sequencer emits starts at the cursor. -/
lemma sequencePhases_head_debut (bps : List Blueprint) (cur : Int) (aco : String) :
    ∀ p ∈ (sequencePhases bps cur aco).head?, p.date_debut = cur := by
  cases bps with
  | nil => simp [sequencePhases]
  | cons bp rest => simp [sequencePhases]

/-- On an in-range index, the insertion unfolds to: unchanged prefix, the
new phase built from the target's former start, then the shifted suffix. -/
lemma insertBefore_eq_of_lt (phases : List Phase) (idx : Nat)
    (nid nnom ncoul ndesc nresp : String) (d : Int) (h : idx < phases.length) :
    insertBefore phases idx nid nnom ncoul ndesc nresp d =
      phases.take idx ++
        newPhaseAt (phases.get ⟨idx, h⟩).date_debut nid nnom ncoul ndesc nresp d
          :: (phases.drop idx).map (shiftPhase d) := by
  unfold insertBefore
  rw [List.getElem?_eq_getElem h]
  rfl

/-- The head of `phases.drop idx` is the target phase. -/
lemma head_drop_eq (phases : List Phase) (idx : Nat) (h : idx < phases.length) :
    (phases.drop idx).head? = some (phases.get ⟨idx, h⟩) := by
  rw [List.head?_eq_getElem? (phases.drop idx), List.getElem?_drop, Nat.add_zero,
    List.getElem?_eq_getElem h]
  rfl

end Opcopilot

namespace Opcopilot

/-! ## Claims -/

/-- C1, counterexample: the creation workflow applied to a single blueprint
of nominal duration 10 produces a phase whose inclusive span
(end − start + 1) is 11, not 10 — `date_fin_phase = current_date +
timedelta(days=duree_jours)` has no `- 1`. -/
theorem C1_counterexample :
    ((nouvelle_operation "Op A" "OPP" "Marie" 100000 0 365
        [⟨"Études", 10, "#1f77b4"⟩] []).2.map
      (fun op => op.phases.map (fun p => p.date_fin - p.date_debut + 1)))
      = [[11]] ∧ (11 : Int) ≠ 10 := by
  exact ⟨by decide, by decide⟩

/-- C1, amended: every phase produced by the creation workflow's sequencing
loop satisfies (end − start) = the blueprint's nominal duration in days —
the inclusive date range spans duration + 1 days, not duration. -/
theorem C1_span (bps : List Blueprint) (cur : Int) (aco : String) :
    List.Forall₂ (fun (p : Phase) (bp : Blueprint) =>
      p.date_fin - p.date_debut = bp.duree_jours) (sequencePhases bps cur aco) bps := by
  induction bps generalizing cur with
  | nil => exact List.Forall₂.nil
  | cons bp rest ih =>
    refine List.Forall₂.cons ?_ (ih _)
    simp [sequencePhases]

/-- C2: the creation workflow is contiguous — in every produced phase list,
each phase starts exactly one day after the previous phase ends (the cursor
advances to `date_fin_phase + timedelta(days=1)`). -/
theorem C2_creation_contiguity (bps : List Blueprint) (cur : Int) (aco : String) :
    Contiguous (sequencePhases bps cur aco) := by
  induction bps generalizing cur with
  | nil => exact List.chain'_nil
  | cons bp rest ih =>
    refine List.chain'_cons'.mpr ⟨?_, ih _⟩
    intro q hq
    rw [sequencePhases_head_debut rest _ aco q hq]

/-- C3: inserting a phase of duration d BEFORE the target at index `idx` of
a contiguous list yields a list one longer in which position `idx` holds the
new phase starting at the target's former start date (ending d − 1 days
later), every phase from the target onward reappears one position later
with both dates advanced by exactly d days (relative order preserved), and
the full resulting list is contiguous. -/
theorem C3_insert_before (phases : List Phase) (idx : Nat)
    (nid nnom ncoul ndesc nresp : String) (d : Int)
    (h : idx < phases.length) (hc : Contiguous phases) :
    (insertBefore phases idx nid nnom ncoul ndesc nresp d).length = phases.length + 1
    ∧ (insertBefore phases idx nid nnom ncoul ndesc nresp d)[idx]?
        = some (newPhaseAt (phases.get ⟨idx, h⟩).date_debut nid nnom ncoul ndesc nresp d)
    ∧ (∀ j : Nat, idx ≤ j →
        (insertBefore phases idx nid nnom ncoul ndesc nresp d)[j + 1]?
          = (phases[j]?).map (shiftPhase d))
    ∧ Contiguous (insertBefore phases idx nid nnom ncoul ndesc nresp d) := by
  have heq := insertBefore_eq_of_lt phases idx nid nnom ncoul ndesc nresp d h
  have hlt : (phases.take idx).length = idx := List.length_take_of_le h.le
  have hlen : (insertBefore phases idx nid nnom ncoul ndesc nresp d).length
      = phases.length + 1 := by
    rw [heq]
    simp only [List.length_append, List.length_cons, List.length_map,
      List.length_drop, hlt]
    omega
  refine ⟨hlen, ?_, ?_, ?_⟩
  · rw [heq, List.getElem?_append_right (by omega), hlt, Nat.sub_self,
      List.getElem?_cons_zero]
  · intro j hj
    by_cases hjl : j < phases.length
    · rw [heq, List.getElem?_append_right (by omega), hlt]
      have hsub : j + 1 - idx = (j - idx) + 1 := by omega
      rw [hsub, List.getElem?_cons_succ, List.getElem?_map, List.getElem?_drop]
      have hadd : idx + (j - idx) = j := by omega
      rw [hadd]
    · have h1 : phases[j]? = none := List.getElem?_eq_none (by omega)
      have h2 : (insertBefore phases idx nid nnom ncoul ndesc nresp d)[j + 1]? = none :=
        List.getElem?_eq_none (by omega)
      rw [h1, h2]
      rfl
  · unfold Contiguous at hc ⊢
    rw [heq]
    have hsplit : (phases.take idx ++ phases.drop idx).Chain'
        (fun p q => q.date_debut = p.date_fin + 1) := by
      rw [List.take_append_drop]
      exact hc
    obtain ⟨hTake, hDrop, hJunc⟩ := List.chain'_append.mp hsplit
    have hd := head_drop_eq phases idx h
    refine List.chain'_append.mpr ⟨hTake, ?_, ?_⟩
    · refine List.chain'_cons'.mpr ⟨?_, ?_⟩
      · intro q hq
        rw [List.head?_map _ (phases.drop idx), hd] at hq
        simp only [Option.map_some', Option.mem_def, Option.some.injEq] at hq
        subst hq
        simp only [shiftPhase, newPhaseAt]
        omega
      · rw [List.chain'_map]
        refine hDrop.imp (fun a b hab => ?_)
        simp only [shiftPhase]
        omega
    · intro x hx y hy
      simp only [List.head?_cons, Option.mem_def, Option.some.injEq] at hy
      subst hy
      have htgt := hJunc x hx (phases.get ⟨idx, h⟩) (by rw [hd]; rfl)
      simp only [newPhaseAt]
      omega

/-- C3, witness: inserting a 7-day phase before the second phase of a
two-phase created operation keeps the whole list contiguous. -/
theorem C3_insert_before_witness :
    1 < (sequencePhases [⟨"A", 10, "c1"⟩, ⟨"B", 5, "c2"⟩] 0 "r").length
    ∧ Contiguous (sequencePhases [⟨"A", 10, "c1"⟩, ⟨"B", 5, "c2"⟩] 0 "r")
    ∧ Contiguous (insertBefore (sequencePhases [⟨"A", 10, "c1"⟩, ⟨"B", 5, "c2"⟩] 0 "r")
        1 "n" "N" "c" "" "r" 7) :=
  ⟨by decide, by decide,
    (C3_insert_before (sequencePhases [⟨"A", 10, "c1"⟩, ⟨"B", 5, "c2"⟩] 0 "r")
      1 "n" "N" "c" "" "r" 7 (by decide) (by decide)).2.2.2⟩

/-- C9: every phase strictly before the insertion point is returned
byte-for-byte unchanged — the full record at each index j < idx, all nine
fields included, is the same before and after the insertion. -/
theorem C9_insert_frame (phases : List Phase) (idx : Nat)
    (nid nnom ncoul ndesc nresp : String) (d : Int) (j : Nat)
    (h : idx < phases.length) (hj : j < idx) :
    (insertBefore phases idx nid nnom ncoul ndesc nresp d)[j]? = phases[j]? := by
  rw [insertBefore_eq_of_lt phases idx nid nnom ncoul ndesc nresp d h,
    List.getElem?_append_left
      (show j < (phases.take idx).length by rw [List.length_take_of_le h.le]; exact hj),
    List.getElem?_take, if_pos hj]

/-- C9, witness: the first phase is untouched by an insertion before the
second phase. -/
theorem C9_insert_frame_witness :
    1 < (sequencePhases [⟨"A", 10, "c1"⟩, ⟨"B", 5, "c2"⟩] 0 "r").length
    ∧ (0 : Nat) < 1
    ∧ (insertBefore (sequencePhases [⟨"A", 10, "c1"⟩, ⟨"B", 5, "c2"⟩] 0 "r")
        1 "n" "N" "c" "" "r" 7)[0]?
      = (sequencePhases [⟨"A", 10, "c1"⟩, ⟨"B", 5, "c2"⟩] 0 "r")[0]? :=
  ⟨by decide, by decide,
    C9_insert_frame (sequencePhases [⟨"A", 10, "c1"⟩, ⟨"B", 5, "c2"⟩] 0 "r")
      1 "n" "N" "c" "" "r" 7 0 (by decide) (by decide)⟩

/-- C4, counterexample: the round-trip fails for the unit "jours" at n = 7 —
`format_duration(convert_to_days(7, "jours"))` is "1 semaines", not
"7 jours": formatting promotes every exact multiple of 7 to weeks. -/
theorem C4_counterexample :
    (convert_to_days 7 "jours").map format_duration = some "1 semaines"
      ∧ "1 semaines" ≠ "7 jours" := by
  exact ⟨by decide, by decide⟩

/-- C4, amended: the round-trip recovers the coarsest exact unit, so it
returns "n mois" for months always, "n semaines" for weeks exactly when
30 does not divide n (else months win), and "n jours" for days exactly when
neither 7 nor 30 divides n (else a coarser unit wins). -/
theorem C4_duration_roundtrip (n : Int) (hn : 0 < n) :
    (convert_to_days n "mois").map format_duration = some (toString n ++ " mois")
    ∧ (¬ ((30:Int) ∣ n) → (convert_to_days n "semaines").map format_duration
        = some (toString n ++ " semaines"))
    ∧ (¬ ((7:Int) ∣ n) → ¬ ((30:Int) ∣ n) →
        (convert_to_days n "jours").map format_duration
          = some (toString n ++ " jours")) := by
  refine ⟨?_, fun hw => ?_, fun h7 h30 => ?_⟩
  · have hconv : convert_to_days n "mois" = some (n * 30) := rfl
    rw [hconv, Option.map_some']
    unfold format_duration
    rw [if_pos ⟨by omega, by omega⟩, Int.mul_ediv_cancel _ (by decide)]
  · have hconv : convert_to_days n "semaines" = some (n * 7) := rfl
    rw [hconv, Option.map_some']
    unfold format_duration
    rw [if_neg, if_pos ⟨by omega, by omega⟩, Int.mul_ediv_cancel _ (by decide)]
    rintro ⟨-, hmod⟩
    exact hw (Int.dvd_of_dvd_mul_left_of_gcd_one (Int.dvd_of_emod_eq_zero hmod) (by decide))
  · have hconv : convert_to_days n "jours" = some (n * 1) := rfl
    rw [hconv, Option.map_some', mul_one]
    unfold format_duration
    rw [if_neg, if_neg]
    · rintro ⟨-, hmod⟩
      exact h7 (Int.dvd_of_emod_eq_zero hmod)
    · rintro ⟨-, hmod⟩
      exact h30 (Int.dvd_of_emod_eq_zero hmod)

/-- C4, witness at n = 3: `toDays(3, weeks) = 21` and `formatDuration(21)`
is "3 semaines" (Scenario C). -/
theorem C4_duration_roundtrip_witness :
    (0 : Int) < 3
    ∧ ((convert_to_days 3 "mois").map format_duration = some (toString (3:Int) ++ " mois")
      ∧ (¬ ((30:Int) ∣ 3) → (convert_to_days 3 "semaines").map format_duration
          = some (toString (3:Int) ++ " semaines"))
      ∧ (¬ ((7:Int) ∣ 3) → ¬ ((30:Int) ∣ 3) →
          (convert_to_days 3 "jours").map format_duration
            = some (toString (3:Int) ++ " jours"))) :=
  ⟨by decide, C4_duration_roundtrip 3 (by decide)⟩

/-- C5: the "Alertes Critiques" aggregate is the plain sum of the delayed
count and the blocked-phase count with no deduplication — a delayed phase
that also carries blockers adds 2 — and the Scenario D operation (statuses
[Terminé, Terminé, Retard, En attente] with one frein on the Retard phase)
yields progress ratio 1/2, delayed count 1, blocked count 1, alert count 2. -/
theorem C5_alert_aggregation :
    (∀ phases : List Phase,
      alertes_critiques phases = phases_en_retard phases + freins_critiques phases)
    ∧ (∀ (phases : List Phase) (p : Phase), p.statut = "Retard" → p.freins ≠ [] →
        alertes_critiques (p :: phases) = alertes_critiques phases + 2)
    ∧ (avancement scenarioD = 1/2 ∧ phases_en_retard scenarioD = 1
        ∧ freins_critiques scenarioD = 1 ∧ alertes_critiques scenarioD = 2) := by
  refine ⟨fun phases => rfl, fun phases p hs hf => ?_, ?_, by decide, by decide, by decide⟩
  · have h1 : phases_en_retard (p :: phases) = phases_en_retard phases + 1 := by
      simp [phases_en_retard, List.filter_cons, hs]
    have h2 : freins_critiques (p :: phases) = freins_critiques phases + 1 := by
      simp [freins_critiques, List.filter_cons, hf]
    simp only [alertes_critiques, h1, h2]
    omega
  · show avancement scenarioD = 1/2
    have hc : phases_completed scenarioD = 2 := by decide
    have hl : scenarioD.length = 4 := by decide
    rw [avancement, hc, hl]
    norm_num

/-- C5, witness: a concrete delayed-and-blocked phase prepended to the empty
list raises the alert count by exactly 2. -/
theorem C5_alert_aggregation_witness :
    phaseRetardBloquee.statut = "Retard"
    ∧ phaseRetardBloquee.freins ≠ []
    ∧ alertes_critiques [phaseRetardBloquee] = alertes_critiques [] + 2 :=
  ⟨by decide, by decide,
    C5_alert_aggregation.2.1 [] phaseRetardBloquee (by decide) (by decide)⟩

/-- C6, counterexample: a phase running from day 0 to day 9 inclusive is
rendered with a bar of width 9 (`(date_fin - date_debut).days`), not the
claimed (end − start) + 1 = 10. -/
theorem C6_counterexample :
    (create_timeline_gantt
        [{ id := "1", nom := "P", date_debut := 0, date_fin := 9, couleur := "c" }]).map
      GanttBar.width = [(9 : Int)]
    ∧ (9 : Int) ≠ (9 - 0) + 1 := by
  exact ⟨by decide, by decide⟩

/-- C6, amended: every bar of the timeline layout has width
(end − start) — the day-count difference of the two dates, without the
inclusive +1. For phases built by the creation workflow this equals the
blueprint's nominal duration, since there end = start + duration. -/
theorem C6_timeline_span (phases : List Phase) :
    (create_timeline_gantt phases).map GanttBar.width
      = phases.map (fun p => p.date_fin - p.date_debut) := by
  simp only [create_timeline_gantt, List.map_map]
  rfl

/-- C7, counterexample: with all required fields present but
`date_fin = date_debut` (endDate ≤ startDate), creation nevertheless
succeeds and persists the operation — the source validates only the three
required fields and never compares the dates. -/
theorem C7_counterexample :
    (nouvelle_operation "Résidence X" "OPP" "Marie" 100000 5 5 [] []).1 = true
    ∧ (5 : Int) ≤ 5 := by
  exact ⟨by decide, by decide⟩

/-- C7, amended: creation fails exactly when the name, type or responsible
is missing (empty), and on failure nothing is persisted — the store is
returned unchanged; when the three fields are present it succeeds and
appends exactly one operation, whatever the two dates are. -/
theorem C7_validation_atomicity (nom type_operation aco_responsable : String)
    (budget date_debut date_fin : Int) (phases_template : List Blueprint)
    (store : List Operation) :
    (nom = "" ∨ type_operation = "" ∨ aco_responsable = "" →
      nouvelle_operation nom type_operation aco_responsable budget
        date_debut date_fin phases_template store = (false, store))
    ∧ (nom ≠ "" → type_operation ≠ "" → aco_responsable ≠ "" →
        ∃ op : Operation,
          nouvelle_operation nom type_operation aco_responsable budget
            date_debut date_fin phases_template store = (true, store ++ [op])
          ∧ op.nom = nom
          ∧ op.phases = sequencePhases phases_template date_debut aco_responsable) := by
  constructor
  · intro h
    simp only [nouvelle_operation, if_pos h]
  · intro h1 h2 h3
    have hcond : ¬ (nom = "" ∨ type_operation = "" ∨ aco_responsable = "") := by
      push_neg
      exact ⟨h1, h2, h3⟩
    refine ⟨
      { id := "", nom := nom, type_operation := type_operation,
        aco_responsable := aco_responsable, date_creation := 0,
        date_debut := date_debut, date_fin_prevue := date_fin, budget := budget,
        statut := "Créée",
        phases := sequencePhases phases_template date_debut aco_responsable },
      ?_, rfl, rfl⟩
    unfold nouvelle_operation
    rw [if_neg hcond]

/-- C7, witness: a missing name makes creation fail and leave the store
untouched; the populated inputs with equal dates succeed. -/
theorem C7_validation_atomicity_witness :
    (("" : String) = "" ∨ ("OPP" : String) = "" ∨ ("Marie" : String) = "")
    ∧ nouvelle_operation "" "OPP" "Marie" 100000 0 365 [] [] = (false, []) :=
  ⟨Or.inl rfl,
    (C7_validation_atomicity "" "OPP" "Marie" 100000 0 365 [] []).1 (Or.inl rfl)⟩

/-- C8, counterexample: `convert_to_days(-3, "jours")` returns −3 instead of
failing — the source multiplies by the unit factor with no check of the
value's sign. -/
theorem C8_counterexample :
    convert_to_days (-3) "jours" = some (-3) ∧ (-3 : Int) ≤ 0 := by
  exact ⟨by decide, by decide⟩

/-- C8, amended: `convert_to_days` multiplies any integer value by 1, 7 or
30 for the three recognised units and fails (KeyError on the unit dict)
exactly on a unit outside the closed set; it performs no validation of the
value, so value ≤ 0 does not fail. -/
theorem C8_toDays (valeur : Int) :
    convert_to_days valeur "jours" = some (valeur * 1)
    ∧ convert_to_days valeur "semaines" = some (valeur * 7)
    ∧ convert_to_days valeur "mois" = some (valeur * 30)
    ∧ ∀ unite : String, unite ≠ "jours" → unite ≠ "semaines" → unite ≠ "mois" →
        convert_to_days valeur unite = none := by
  refine ⟨rfl, rfl, rfl, fun unite h1 h2 h3 => ?_⟩
  simp only [convert_to_days, UNITES_DUREE, if_neg h1, if_neg h2, if_neg h3,
    Option.map_none']

/-- C8, witness: the unrecognised unit "heures" fails while the value −3 is
accepted for "jours". -/
theorem C8_toDays_witness :
    ("heures" : String) ≠ "jours" ∧ ("heures" : String) ≠ "semaines"
    ∧ ("heures" : String) ≠ "mois"
    ∧ convert_to_days (-3) "heures" = none :=
  ⟨by decide, by decide, by decide,
    (C8_toDays (-3)).2.2.2 "heures" (by decide) (by decide) (by decide)⟩

/-- C10: "Lever Freins" empties the phase's blocker list and changes no
other field — identifier, name, dates, colour, status, description and
responsible are preserved — hence the delayed count of any surrounding
phase list is unchanged while the blocked-phase count drops by exactly one
when the phase carried blockers. -/
theorem C10_lever_freins :
    (∀ p : Phase, (leverFreins p).freins = []
      ∧ (leverFreins p).id = p.id ∧ (leverFreins p).nom = p.nom
      ∧ (leverFreins p).date_debut = p.date_debut
      ∧ (leverFreins p).date_fin = p.date_fin
      ∧ (leverFreins p).couleur = p.couleur
      ∧ (leverFreins p).statut = p.statut
      ∧ (leverFreins p).description = p.description
      ∧ (leverFreins p).responsable = p.responsable)
    ∧ (∀ (pre post : List Phase) (p : Phase),
        phases_en_retard (pre ++ leverFreins p :: post)
          = phases_en_retard (pre ++ p :: post))
    ∧ (∀ (pre post : List Phase) (p : Phase), p.freins ≠ [] →
        freins_critiques (pre ++ leverFreins p :: post) + 1
          = freins_critiques (pre ++ p :: post)) := by
  refine ⟨fun p => ⟨rfl, rfl, rfl, rfl, rfl, rfl, rfl, rfl, rfl⟩,
    fun pre post p => ?_, fun pre post p hf => ?_⟩
  · have h1 : phases_en_retard (leverFreins p :: post) = phases_en_retard (p :: post) := by
      simp only [phases_en_retard, List.filter_cons, leverFreins]
      split <;> simp
    simp only [phases_en_retard, List.filter_append, List.length_append] at h1 ⊢
    omega
  · have h1 : freins_critiques (leverFreins p :: post) = freins_critiques post := by
      simp [freins_critiques, List.filter_cons, leverFreins]
    have h2 : freins_critiques (p :: post) = freins_critiques post + 1 := by
      simp [freins_critiques, List.filter_cons, hf]
    simp only [freins_critiques, List.filter_append, List.length_append] at h1 h2 ⊢
    omega

/-- C10, witness: clearing the single blocker of a concrete delayed phase
removes it from the blocked-phase tally. -/
theorem C10_lever_freins_witness :
    phaseRetardBloquee.freins ≠ []
    ∧ freins_critiques ([] ++ leverFreins phaseRetardBloquee :: []) + 1
      = freins_critiques ([] ++ phaseRetardBloquee :: []) :=
  ⟨by decide, C10_lever_freins.2.2 [] [] phaseRetardBloquee (by decide)⟩

end Opcopilot
